import Mathlib

/-!
Shallow embedding of the dissy repository's logical-clock core
(`lamport.go`, `vector.go`, `simulation.go`, `benchmark.go`).

Modelling conventions:
* Go `int` is modelled by `Int` (counters start at 0 and only grow; no code
  path depends on 64-bit wrap-around).
* Go `float64` results of `calculateOrderingCorrectness` are modelled by `ℚ`
  (the function only divides two small integer counts and scales by 100).
* A Go `panic` (explicit, or an out-of-range slice index) aborts the program;
  a function that can panic is modelled with an `Option` result, `none`
  standing for the abort.
* The per-clock mutexes serialise each operation; operations are therefore
  modelled as pure state transformers.
-/

namespace Dissy

/-! ## lamport.go : LamportClock

`LamportClock` holds a single `time : int` starting at 0.  Each operation
mutates `time` and returns the new value, so state and return value coincide
and the operations are modelled as functions `Int → Int`. -/

/-- `LocalEvent`: `lc.time++; return lc.time`. -/
def lamportLocalEvent (t : Int) : Int := t + 1

/-- `SendEvent`: identical to `LocalEvent`. -/
def lamportSendEvent (t : Int) : Int := t + 1

/-- `ReceiveEvent(receivedTime)`: `if receivedTime > lc.time { lc.time =
receivedTime }; lc.time++; return lc.time`. -/
def lamportReceiveEvent (t receivedTime : Int) : Int :=
  (if receivedTime > t then receivedTime else t) + 1

/-- One operation applied to a `LamportClock`, as issued by a participant:
local event, send event, or receive with an arbitrary received counter. -/
inductive ScalarOp where
  | localEvent : ScalarOp
  | sendEvent : ScalarOp
  | receiveEvent (receivedTime : Int) : ScalarOp

/-- The new clock value (= the returned value) after one operation. -/
def scalarApply (t : Int) : ScalarOp → Int
  | ScalarOp.localEvent => lamportLocalEvent t
  | ScalarOp.sendEvent => lamportSendEvent t
  | ScalarOp.receiveEvent r => lamportReceiveEvent t r

/-- The sequence of values returned by a `LamportClock` starting at `t`
while executing `ops` in order. -/
def scalarReturns (t : Int) : List ScalarOp → List Int
  | [] => []
  | op :: ops => scalarApply t op :: scalarReturns (scalarApply t op) ops

/-! ## vector.go : VectorClock and CompareVectors -/

/-- `VectorClock`: an array of counters (index = process id) plus the owning
process's id.  The mutex is dropped (operations are serialised). -/
structure VectorClock where
  vector : List Int
  processID : Nat
deriving DecidableEq, Repr

/-- `NewVectorClock(numProcesses, processID)`: all-zero vector. -/
def NewVectorClock (numProcesses processID : Nat) : VectorClock :=
  { vector := List.replicate numProcesses 0, processID := processID }

/-- `vc.vector[vc.processID]++` — panics (`none`) when `processID` is out of
range, as the Go slice index would. -/
def VectorClock.incrementOwn (vc : VectorClock) : Option VectorClock :=
  if vc.processID < vc.vector.length then
    some { vc with
      vector := vc.vector.set vc.processID (vc.vector.getD vc.processID 0 + 1) }
  else none

/-- `LocalEvent`: increment own counter, return a copy of the vector. -/
def VectorClock.localEvent (vc : VectorClock) : Option (VectorClock × List Int) :=
  match vc.incrementOwn with
  | some vc2 => some (vc2, vc2.vector)
  | none => none

/-- `SendEvent`: identical to `LocalEvent`. -/
def VectorClock.sendEvent (vc : VectorClock) : Option (VectorClock × List Int) :=
  match vc.incrementOwn with
  | some vc2 => some (vc2, vc2.vector)
  | none => none

/-- `ReceiveEvent(receivedVector)`: the merge loop runs `i` over
`0 ..< len(vc.vector)` taking `max(vc.vector[i], receivedVector[i])`, so it
panics when `receivedVector` is shorter than `vc.vector` (index out of range)
and silently ignores any trailing entries of a longer `receivedVector`
(`List.zipWith` truncates to the shorter list, here `vc.vector`).  Then the
own counter is incremented and a copy returned. -/
def VectorClock.receiveEvent (vc : VectorClock) (receivedVector : List Int) :
    Option (VectorClock × List Int) :=
  if receivedVector.length < vc.vector.length then none
  else
    match VectorClock.incrementOwn
        { vc with vector := List.zipWith max vc.vector receivedVector } with
    | some vc2 => some (vc2, vc2.vector)
    | none => none

/-- `GetVector`: read-only copy of the current vector. -/
def VectorClock.GetVector (vc : VectorClock) : List Int := vc.vector

/-- `CompareVectors(v1, v2)`: panics (`none`) on a length mismatch; otherwise
one pass computes the flag `lessOrEqual` (no index with `v1[i] > v2[i]`,
written here as the conjunction over the zipped pairs) and the flag
`greaterOrEqual` (no index with `v1[i] < v2[i]`) and classifies:
`-1` (before), `1` (after), `0` (concurrent, including identical vectors;
the two final `return 0` branches of the source are merged). -/
def CompareVectors (v1 v2 : List Int) : Option Int :=
  if v1.length = v2.length then
    if ((v1.zip v2).all fun p => decide (p.1 ≤ p.2)) &&
        !((v1.zip v2).all fun p => decide (p.2 ≤ p.1)) then some (-1)
    else if ((v1.zip v2).all fun p => decide (p.2 ≤ p.1)) &&
        !((v1.zip v2).all fun p => decide (p.1 ≤ p.2)) then some 1
    else some 0
  else none

/-! ## simulation.go : Process and its event-recording operations

A `Process` couples one clock of each kind with an append-only event log and
per-event snapshot lists.  The `MessageQueue` channel is not part of a
process's own recorded state (it only buffers `Event`s for the receive loop)
and message serialisation is modelled away: `SendMessage` formats the clock
value into the message string and `ReceiveMessage` parses it back, so a
receive operation here carries the received clock value directly. -/

structure Process where
  ID : Nat
  lamportTime : Int
  vclock : VectorClock
  EventLog : List String
  EventVectors : List (List Int)
  EventTimestamps : List Int
  UseVectorClock : Bool
deriving DecidableEq, Repr

/-- `NewProcess(id, numProcesses, useVectorClock)`: fresh clocks, empty logs. -/
def NewProcess (id numProcesses : Nat) (useVectorClock : Bool) : Process :=
  { ID := id
    lamportTime := 0
    vclock := NewVectorClock numProcesses id
    EventLog := []
    EventVectors := []
    EventTimestamps := []
    UseVectorClock := useVectorClock }

/-- `HandleLocalEvent(message)`: advance the active clock, append the snapshot
to the active snapshot list and one entry to the event log.  (The log entry's
formatted text is presentation-only; the entry is recorded as the message.) -/
def Process.handleLocalEvent (p : Process) (message : String) : Option Process :=
  if p.UseVectorClock then
    match p.vclock.localEvent with
    | some (vc2, vector) =>
        some { p with
          vclock := vc2
          EventVectors := p.EventVectors ++ [vector]
          EventLog := p.EventLog ++ [message] }
    | none => none
  else
    some { p with
      lamportTime := lamportLocalEvent p.lamportTime
      EventTimestamps := p.EventTimestamps ++ [lamportLocalEvent p.lamportTime]
      EventLog := p.EventLog ++ [message] }

/-- `SendMessage(target, message)`: the sender-side effects — advance the
active clock via the send event, append the snapshot and a log entry.  The
enqueue into the target's `MessageQueue` touches no sender state and is
delivered to the target as a later `receiveMessage` operation. -/
def Process.sendMessage (p : Process) (message : String) : Option Process :=
  if p.UseVectorClock then
    match p.vclock.sendEvent with
    | some (vc2, vector) =>
        some { p with
          vclock := vc2
          EventVectors := p.EventVectors ++ [vector]
          EventLog := p.EventLog ++ [message] }
    | none => none
  else
    some { p with
      lamportTime := lamportSendEvent p.lamportTime
      EventTimestamps := p.EventTimestamps ++ [lamportSendEvent p.lamportTime]
      EventLog := p.EventLog ++ [message] }

/-- `ReceiveMessage(event)`: merge the received clock value (parsed out of the
message by the source; carried directly here) into the active clock, append
the post-merge snapshot and one log entry. -/
def Process.receiveMessage (p : Process) (receivedVector : List Int)
    (receivedTime : Int) (message : String) : Option Process :=
  if p.UseVectorClock then
    match p.vclock.receiveEvent receivedVector with
    | some (vc2, vector) =>
        some { p with
          vclock := vc2
          EventVectors := p.EventVectors ++ [vector]
          EventLog := p.EventLog ++ [message] }
    | none => none
  else
    some { p with
      lamportTime := lamportReceiveEvent p.lamportTime receivedTime
      EventTimestamps :=
        p.EventTimestamps ++ [lamportReceiveEvent p.lamportTime receivedTime]
      EventLog := p.EventLog ++ [message] }

/-- One event-recording operation on a process.  A receive carries both
payload forms; the process's active clock mode selects which one is used
(matching the `Event.Message` string that encodes either a vector or a
scalar timestamp). -/
inductive ProcOp where
  | localEvent (message : String) : ProcOp
  | sendMessage (message : String) : ProcOp
  | receiveMessage (receivedVector : List Int) (receivedTime : Int)
      (message : String) : ProcOp

/-- Dispatch one operation. -/
def applyProcOp (p : Process) : ProcOp → Option Process
  | ProcOp.localEvent message => p.handleLocalEvent message
  | ProcOp.sendMessage message => p.sendMessage message
  | ProcOp.receiveMessage receivedVector receivedTime message =>
      p.receiveMessage receivedVector receivedTime message

/-- Run a sequence of operations; a panic anywhere aborts the run. -/
def runProcOps (p : Process) : List ProcOp → Option Process
  | [] => some p
  | op :: ops =>
      match applyProcOp p op with
      | some q => runProcOps q ops
      | none => none

/-- The length of the snapshot list the process's active clock mode writes. -/
def activeSnapshotLength (p : Process) : Nat :=
  if p.UseVectorClock then p.EventVectors.length else p.EventTimestamps.length

/-- The event log and the active snapshot list have the same length. -/
def snapshotAligned (p : Process) : Prop :=
  p.EventLog.length = activeSnapshotLength p

/-- The active snapshot list covers the event log (no fallback needed). -/
def snapshotsCover (useVectorClock : Bool) (p : Process) : Prop :=
  p.EventLog.length ≤
    (if useVectorClock then p.EventVectors.length else p.EventTimestamps.length)

instance decSnapshotsCover (useVectorClock : Bool) (p : Process) :
    Decidable (snapshotsCover useVectorClock p) := by
  unfold snapshotsCover
  infer_instance

/-- `Simulation`: a fixed set of processes and the configured clock mode. -/
structure Simulation where
  Processes : List Process
  UseVectorClock : Bool
deriving DecidableEq, Repr

/-! ## benchmark.go : calculateOrderingCorrectness -/

/-- `EventRecord` as built inside `calculateOrderingCorrectness`; fields not
set in the active mode keep their Go zero values. -/
structure EventRecord where
  ProcessID : Nat
  Vector : List Int
  Timestamp : Int
  EventNum : Nat
deriving DecidableEq, Repr

/-- The records contributed by one process: one per event-log entry, with the
stored snapshot at that index when present, and the clock's *current* value
as the fallback (`p.VectorClock.GetVector()` / `p.LamportClock.GetTime()`). -/
def collectProcessEvents (useVectorClock : Bool) (p : Process) :
    List EventRecord :=
  (List.range p.EventLog.length).map fun i =>
    if useVectorClock then
      { ProcessID := p.ID
        Vector := if i < p.EventVectors.length then p.EventVectors.getD i []
                  else p.vclock.GetVector
        Timestamp := 0
        EventNum := i }
    else
      { ProcessID := p.ID
        Vector := []
        Timestamp := if i < p.EventTimestamps.length then p.EventTimestamps.getD i 0
                     else p.lamportTime
        EventNum := i }

/-- `allEvents`: the records of every process, in process order. -/
def collectEvents (sim : Simulation) : List EventRecord :=
  (sim.Processes.map (collectProcessEvents sim.UseVectorClock)).foldr (· ++ ·) []

/-- The unordered pairs `(l[i], l[j])`, `i < j`, exactly as the double loop
`for i; for j := i+1` enumerates them. -/
def allPairs : List EventRecord → List (EventRecord × EventRecord)
  | [] => []
  | x :: xs => (xs.map fun y => (x, y)) ++ allPairs xs

/-- `orderablePairs`: in vector mode every pair counts (after the comparison
is computed and discarded); in scalar mode only pairs with differing
timestamps count. -/
def orderableCount (sim : Simulation) : Nat :=
  if sim.UseVectorClock then (allPairs (collectEvents sim)).length
  else (allPairs (collectEvents sim)).countP
    fun pr => decide (pr.1.Timestamp ≠ pr.2.Timestamp)

/-- `calculateOrderingCorrectness(sim)`: 100 on zero or one events; otherwise
`orderablePairs / totalPairs * 100`.  In vector mode the loop calls
`CompareVectors` on every pair, so a pair of snapshots with mismatched
lengths panics (`none`). -/
def calculateOrderingCorrectness (sim : Simulation) : Option ℚ :=
  if (collectEvents sim).length ≤ 1 then some 100
  else if sim.UseVectorClock &&
      !((allPairs (collectEvents sim)).all
        fun pr => (CompareVectors pr.1.Vector pr.2.Vector).isSome) then none
  else if (allPairs (collectEvents sim)).length = 0 then some 100
  else some ((orderableCount sim : ℚ) /
      ((allPairs (collectEvents sim)).length : ℚ) * 100)

/-! ## Specification-level predicates and concrete states used below -/

/-- Pointwise domination, phrased over indices as the spec does:
`v1[i] ≤ v2[i]` for every index `i` of `v1`. -/
def vecLE (v1 v2 : List Int) : Prop :=
  ∀ i, i < v1.length → v1.getD i 0 ≤ v2.getD i 0

instance decVecLE (v1 v2 : List Int) : Decidable (vecLE v1 v2) :=
  Nat.decidableBallLT v1.length fun i _ => v1.getD i 0 ≤ v2.getD i 0

/-- Two processes agree on everything `calculateOrderingCorrectness` is
supposed to read: the event log and both per-event snapshot lists (and the
id); the current clock values are deliberately left unconstrained. -/
def agreeOnRecords (p q : Process) : Prop :=
  p.ID = q.ID ∧ p.EventLog = q.EventLog ∧ p.EventVectors = q.EventVectors ∧
    p.EventTimestamps = q.EventTimestamps

/-- A scalar-mode process with two logged events and timestamps 1, 2. -/
def scalarProcA : Process :=
  { ID := 0, lamportTime := 2, vclock := NewVectorClock 2 0,
    EventLog := [ "x", "y"], EventVectors := [],
    EventTimestamps := [1, 2], UseVectorClock := false }

/-- A scalar-mode process with one logged event and timestamp 1. -/
def scalarProcB : Process :=
  { ID := 1, lamportTime := 1, vclock := NewVectorClock 2 1,
    EventLog := [ "z"], EventVectors := [],
    EventTimestamps := [1], UseVectorClock := false }

/-- A fully snapshot-covered scalar trace with three events. -/
def scalarSim : Simulation :=
  { Processes := [scalarProcA, scalarProcB], UseVectorClock := false }

/-- A scalar-mode process whose event log is one entry longer than its
snapshot list, so the fallback branch reads `lamportTime` for the second
event.  Such a state never arises from the recording operations, but it is a
`Simulation` state the analysis accepts. -/
def fallbackProcA : Process :=
  { ID := 0, lamportTime := 5, vclock := NewVectorClock 1 0,
    EventLog := [ "a", "b"], EventVectors := [],
    EventTimestamps := [5], UseVectorClock := false }

/-- `fallbackProcA` with a different current clock value. -/
def fallbackProcB : Process :=
  { fallbackProcA with lamportTime := 7 }

/-- The one-process scalar trace around `fallbackProcA`. -/
def fallbackSimA : Simulation :=
  { Processes := [fallbackProcA], UseVectorClock := false }

/-- The one-process scalar trace around `fallbackProcB`. -/
def fallbackSimB : Simulation :=
  { Processes := [fallbackProcB], UseVectorClock := false }

/-- A vector-mode trace with three snapshot-covered events. -/
def vectorSim : Simulation :=
  { Processes :=
      [{ ID := 0, lamportTime := 0, vclock := ⟨[2, 0], 0⟩,
         EventLog := [ "x", "y"], EventVectors := [[1, 0], [2, 0]],
         EventTimestamps := [], UseVectorClock := true },
       { ID := 1, lamportTime := 0, vclock := ⟨[2, 1], 1⟩,
         EventLog := [ "z"], EventVectors := [[2, 1]],
         EventTimestamps := [], UseVectorClock := true }],
    UseVectorClock := true }

/-- A two-operation scalar run used to exhibit the log/snapshot alignment. -/
def exampleOps : List ProcOp :=
  [ProcOp.localEvent "a", ProcOp.receiveMessage [] 5 "b"]

/-- The state reached by `exampleOps` from a fresh scalar process. -/
def exampleOpsResult : Process :=
  { ID := 0, lamportTime := 6, vclock := NewVectorClock 1 0,
    EventLog := [ "a", "b"], EventVectors := [],
    EventTimestamps := [1, 6], UseVectorClock := false }

/-! ## Lemmas about the comparator -/

theorem all_zip_iff (R : Int × Int → Bool) :
    ∀ (v1 v2 : List Int), v1.length = v2.length →
      ((v1.zip v2).all R = true ↔
        ∀ i, i < v1.length → R (v1.getD i 0, v2.getD i 0) = true) := by
  intro v1
  induction v1 with
  | nil => intro v2 h; simp
  | cons a t1 ih =>
    intro v2 h
    cases v2 with
    | nil => simp at h
    | cons b t2 =>
      have h2 : t1.length = t2.length := by simpa using h
      rw [List.zip_cons_cons, List.all_cons, Bool.and_eq_true, ih t2 h2]
      constructor
      · rintro ⟨hab, htail⟩ i hi
        cases i with
        | zero => simpa using hab
        | succ j =>
          rw [List.getD_cons_succ, List.getD_cons_succ]
          exact htail j (by simpa using hi)
      · intro hfa
        refine ⟨by simpa using hfa 0 (by simp), fun j hj => ?_⟩
        have hstep := hfa (j + 1) (by simpa using hj)
        rwa [List.getD_cons_succ, List.getD_cons_succ] at hstep

theorem zip_all_le (v1 v2 : List Int) (h : v1.length = v2.length) :
    ((v1.zip v2).all fun p => decide (p.1 ≤ p.2)) = true ↔ vecLE v1 v2 := by
  rw [all_zip_iff _ v1 v2 h]
  unfold vecLE
  simp only [decide_eq_true_eq]

theorem zip_all_ge (v1 v2 : List Int) (h : v1.length = v2.length) :
    ((v1.zip v2).all fun p => decide (p.2 ≤ p.1)) = true ↔ vecLE v2 v1 := by
  rw [all_zip_iff _ v1 v2 h]
  unfold vecLE
  rw [h]
  simp only [decide_eq_true_eq]

/-- On equal-length vectors the source's flag computation agrees with the
index-wise domination predicates. -/
theorem compareVectors_spec (v1 v2 : List Int) (h : v1.length = v2.length) :
    CompareVectors v1 v2 =
      if vecLE v1 v2 ∧ ¬ vecLE v2 v1 then some (-1)
      else if vecLE v2 v1 ∧ ¬ vecLE v1 v2 then some 1
      else some 0 := by
  have p12 := zip_all_le v1 v2 h
  have p21 := zip_all_ge v1 v2 h
  unfold CompareVectors
  rw [if_pos h]
  cases e1 : ((v1.zip v2).all fun p => decide (p.1 ≤ p.2)) <;>
    cases e2 : ((v1.zip v2).all fun p => decide (p.2 ≤ p.1)) <;>
    rw [e1] at p12 <;> rw [e2] at p21 <;> simp_all

/-- Claim C1: on equal-length vectors, `CompareVectors` returns `-1` iff
`v1` is pointwise `≤ v2` but not pointwise `≥`; returns `1` iff pointwise
`≥` but not pointwise `≤`; returns `0` in every other case, in particular
on identical vectors. -/
theorem c1_compare_classification (v1 v2 : List Int)
    (h : v1.length = v2.length) :
    (CompareVectors v1 v2 = some (-1) ↔ vecLE v1 v2 ∧ ¬ vecLE v2 v1) ∧
    (CompareVectors v1 v2 = some 1 ↔ vecLE v2 v1 ∧ ¬ vecLE v1 v2) ∧
    (¬ (vecLE v1 v2 ∧ ¬ vecLE v2 v1) → ¬ (vecLE v2 v1 ∧ ¬ vecLE v1 v2) →
      CompareVectors v1 v2 = some 0) ∧
    (v1 = v2 → CompareVectors v1 v2 = some 0) := by
  rw [compareVectors_spec v1 v2 h]
  refine ⟨?_, ?_, ?_, ?_⟩
  · by_cases h12 : vecLE v1 v2 <;> by_cases h21 : vecLE v2 v1 <;>
      simp [h12, h21]
  · by_cases h12 : vecLE v1 v2 <;> by_cases h21 : vecLE v2 v1 <;>
      simp [h12, h21]
  · intro hno1 hno2
    rw [if_neg hno1, if_neg hno2]
  · intro heq
    subst heq
    simp [and_not_self_iff]

/-- Claim C1 witness: a concrete strictly dominated pair classifies
as before. -/
theorem c1_witness : CompareVectors [1, 0] [1, 1] = some (-1) :=
  ((c1_compare_classification [1, 0] [1, 1] (by decide)).1).mpr (by decide)

/-- Claim C6: `compare(v1,v2) = BEFORE ⇔ compare(v2,v1) = AFTER`, and a
vector compared with itself is CONCURRENT (`0`), not a distinct outcome. -/
theorem c6_comparator_symmetry (v1 v2 : List Int)
    (h : v1.length = v2.length) :
    (CompareVectors v1 v2 = some (-1) ↔ CompareVectors v2 v1 = some 1) ∧
    CompareVectors v1 v1 = some 0 := by
  constructor
  · rw [compareVectors_spec v1 v2 h, compareVectors_spec v2 v1 h.symm]
    by_cases h12 : vecLE v1 v2 <;> by_cases h21 : vecLE v2 v1 <;>
      simp [h12, h21]
  · rw [compareVectors_spec v1 v1 rfl]
    simp [and_not_self_iff]

/-- Claim C6 witness: symmetry at a concurrent pair, self-comparison at a
concrete vector. -/
theorem c6_witness :
    (CompareVectors [1, 0] [0, 1] = some (-1) ↔
      CompareVectors [0, 1] [1, 0] = some 1) ∧
    CompareVectors [1, 0] [1, 0] = some 0 :=
  c6_comparator_symmetry [1, 0] [0, 1] (by decide)

/-! ## Lemmas about the scalar clock -/

/-- Claim C4: the scalar receive takes the maximum of the own counter and
the received counter, then increments; the result is the returned value. -/
theorem c4_lamportReceive_max (t r : Int) :
    lamportReceiveEvent t r = max t r + 1 := by
  unfold lamportReceiveEvent
  rcases le_or_lt r t with hle | hlt
  · rw [if_neg (not_lt.mpr hle), max_eq_left hle]
  · rw [if_pos hlt, max_eq_right hlt.le]

theorem scalarApply_lt (t : Int) (op : ScalarOp) : t < scalarApply t op := by
  cases op <;>
    simp only [scalarApply, lamportLocalEvent, lamportSendEvent,
      lamportReceiveEvent] <;>
    (try split) <;> omega

theorem scalarReturns_chain :
    ∀ (ops : List ScalarOp) (t : Int),
      List.Chain (· < ·) t (scalarReturns t ops) := by
  intro ops
  induction ops with
  | nil => intro t; exact List.Chain.nil
  | cons op rest ih =>
    intro t
    exact List.Chain.cons (scalarApply_lt t op) (ih (scalarApply t op))

/-- Claim C5: starting from 0, the values returned by any operation
sequence on a `LamportClock` form a strictly increasing chain (so the
counter also never decreases). -/
theorem c5_scalar_monotone (ops : List ScalarOp) :
    List.Chain (· < ·) 0 (scalarReturns 0 ops) :=
  scalarReturns_chain ops 0

/-! ## Lemmas about the vector clock merge -/

theorem getD_set_eq (l : List Int) (i : Nat) (a : Int) (h : i < l.length) :
    (l.set i a).getD i 0 = a := by
  rw [List.getD_eq_getElem _ _ (by simpa using h), List.getElem_set_self]

theorem getD_set_ne (l : List Int) (i j : Nat) (a : Int)
    (hj : j < l.length) (hne : i ≠ j) :
    (l.set i a).getD j 0 = l.getD j 0 := by
  rw [List.getD_eq_getElem _ _ (by simpa using hj),
    List.getElem_set_ne hne, List.getD_eq_getElem _ _ hj]

theorem getD_zipWith_max (v r : List Int) (i : Nat)
    (hi : i < v.length) (hr : v.length ≤ r.length) :
    (List.zipWith max v r).getD i 0 = max (v.getD i 0) (r.getD i 0) := by
  have hlen : (List.zipWith max v r).length = v.length := by
    rw [List.length_zipWith]
    exact min_eq_left hr
  rw [List.getD_eq_getElem _ _ (by rw [hlen]; exact hi),
    List.getD_eq_getElem _ _ hi,
    List.getD_eq_getElem _ _ (lt_of_lt_of_le hi hr),
    List.getElem_zipWith]

theorem zipWith_max_take (v : List Int) :
    ∀ r : List Int, List.zipWith max v (r.take v.length) = List.zipWith max v r := by
  induction v with
  | nil => intro r; rfl
  | cons a t ih =>
    intro r
    cases r with
    | nil => simp
    | cons b tr => simp [ih]

/-- The happy-path equation for `ReceiveEvent`: when the received vector is
long enough and the own index is in range, the result is the element-wise
maximum with the own slot additionally incremented. -/
theorem receiveEvent_eq (vc : VectorClock) (received : List Int)
    (hlen : vc.vector.length ≤ received.length)
    (hpid : vc.processID < vc.vector.length) :
    vc.receiveEvent received =
      some (⟨(List.zipWith max vc.vector received).set vc.processID
          ((List.zipWith max vc.vector received).getD vc.processID 0 + 1),
        vc.processID⟩,
        (List.zipWith max vc.vector received).set vc.processID
          ((List.zipWith max vc.vector received).getD vc.processID 0 + 1)) := by
  have hmlen : (List.zipWith max vc.vector received).length = vc.vector.length := by
    rw [List.length_zipWith]
    exact min_eq_left hlen
  unfold VectorClock.receiveEvent VectorClock.incrementOwn
  rw [if_neg (by omega : ¬ received.length < vc.vector.length)]
  rw [if_pos (show vc.processID < (List.zipWith max vc.vector received).length by
    rw [hmlen]; exact hpid)]

/-- Claim C3: a receive with an equal-length vector succeeds, sets every
slot to the pointwise maximum (own slot additionally incremented) and
returns a vector dominating both the pre-merge vector and the received
one. -/
theorem c3_receiveEvent_merge (vc : VectorClock) (received : List Int)
    (hlen : received.length = vc.vector.length)
    (hpid : vc.processID < vc.vector.length) :
    (vc.receiveEvent received).isSome = true ∧
    ∀ vc2 ret, vc.receiveEvent received = some (vc2, ret) →
      ret = vc2.vector ∧ vc2.processID = vc.processID ∧
      ret.length = vc.vector.length ∧
      (∀ i, i < vc.vector.length →
        ret.getD i 0 = if i = vc.processID
          then max (vc.vector.getD i 0) (received.getD i 0) + 1
          else max (vc.vector.getD i 0) (received.getD i 0)) ∧
      (∀ i, i < vc.vector.length →
        vc.vector.getD i 0 ≤ ret.getD i 0 ∧ received.getD i 0 ≤ ret.getD i 0) := by
  have hle : vc.vector.length ≤ received.length := le_of_eq hlen.symm
  have hrecv := receiveEvent_eq vc received hle hpid
  have hmlen : (List.zipWith max vc.vector received).length = vc.vector.length := by
    rw [List.length_zipWith]
    exact min_eq_left hle
  refine ⟨by rw [hrecv]; rfl, ?_⟩
  intro vc2 ret heq
  rw [hrecv] at heq
  injection heq with heq2
  injection heq2 with hvc2 hret
  subst hvc2
  subst hret
  have hpoint : ∀ i, i < vc.vector.length →
      ((List.zipWith max vc.vector received).set vc.processID
          ((List.zipWith max vc.vector received).getD vc.processID 0 + 1)).getD i 0 =
        if i = vc.processID
          then max (vc.vector.getD i 0) (received.getD i 0) + 1
          else max (vc.vector.getD i 0) (received.getD i 0) := by
    intro i hi
    by_cases hip : i = vc.processID
    · subst hip
      rw [if_pos rfl, getD_set_eq _ _ _ (by rw [hmlen]; exact hi),
        getD_zipWith_max vc.vector received vc.processID hi hle]
    · rw [if_neg hip,
        getD_set_ne _ _ _ _ (by rw [hmlen]; exact hi) (fun c => hip c.symm),
        getD_zipWith_max vc.vector received i hi hle]
  refine ⟨rfl, rfl, by rw [List.length_set, hmlen], hpoint, ?_⟩
  intro i hi
  rw [hpoint i hi]
  by_cases hip : i = vc.processID
  · rw [if_pos hip]
    constructor
    · linarith [le_max_left (vc.vector.getD i 0) (received.getD i 0)]
    · linarith [le_max_right (vc.vector.getD i 0) (received.getD i 0)]
  · rw [if_neg hip]
    exact ⟨le_max_left _ _, le_max_right _ _⟩

/-- Claim C3 witness: a concrete merge `⟨[0,3],0⟩.receiveEvent [2,1]`
succeeds and its own slot is `max 0 2 + 1`. -/
theorem c3_witness :
    (VectorClock.receiveEvent ⟨[0, 3], 0⟩ [2, 1]).isSome = true ∧
    ([3, 3] : List Int).getD 0 0 =
      if 0 = 0 then max 0 2 + 1 else max 0 2 :=
  ⟨(c3_receiveEvent_merge ⟨[0, 3], 0⟩ [2, 1] (by decide) (by decide)).1,
   ((c3_receiveEvent_merge ⟨[0, 3], 0⟩ [2, 1] (by decide) (by decide)).2
      ⟨[3, 3], 0⟩ [3, 3] (by decide)).2.2.2.1 0 (by decide)⟩

/-- Claim C7 counterexample: a received vector longer than the clock's
vector does NOT fail; the receive completes silently, truncating the
received vector (the trailing `5` is ignored). -/
theorem c7_counterexample :
    ([0, 5] : List Int).length ≠ ([0] : List Int).length ∧
    VectorClock.receiveEvent ⟨[0], 0⟩ [0, 5] = some (⟨[1], 0⟩, [1]) := by
  constructor
  · decide
  · decide

/-- Claim C7 (amended): a receive whose received vector is shorter than the
clock's vector fails loudly; a longer received vector completes but uses
only its first `len(counters)` entries; comparing vectors of different
lengths fails loudly. -/
theorem c7_length_mismatch (vc : VectorClock) (received : List Int) :
    (received.length < vc.vector.length → vc.receiveEvent received = none) ∧
    (vc.vector.length ≤ received.length → vc.processID < vc.vector.length →
      vc.receiveEvent received =
        vc.receiveEvent (received.take vc.vector.length) ∧
      (vc.receiveEvent received).isSome = true) ∧
    (∀ v1 v2 : List Int, v1.length ≠ v2.length →
      CompareVectors v1 v2 = none) := by
  refine ⟨?_, ?_, ?_⟩
  · intro h
    unfold VectorClock.receiveEvent
    rw [if_pos h]
  · intro hle hpid
    have htlen : (received.take vc.vector.length).length = vc.vector.length := by
      rw [List.length_take]
      exact min_eq_left hle
    have h1 := receiveEvent_eq vc received hle hpid
    have h2 := receiveEvent_eq vc (received.take vc.vector.length)
      (le_of_eq htlen.symm) hpid
    rw [zipWith_max_take vc.vector received] at h2
    exact ⟨h1.trans h2.symm, by rw [h1]; rfl⟩
  · intro v1 v2 hne
    unfold CompareVectors
    rw [if_neg hne]

/-- Claim C7 witness: shorter received vector fails, longer one completes
with the tail ignored, mismatched comparison fails. -/
theorem c7_witness :
    VectorClock.receiveEvent ⟨[0, 0], 1⟩ [1] = none ∧
    (VectorClock.receiveEvent ⟨[0, 0], 1⟩ [1, 2, 3] =
        VectorClock.receiveEvent ⟨[0, 0], 1⟩ ([1, 2, 3].take 2) ∧
      (VectorClock.receiveEvent ⟨[0, 0], 1⟩ [1, 2, 3]).isSome = true) ∧
    CompareVectors [1] [1, 2] = none :=
  ⟨(c7_length_mismatch ⟨[0, 0], 1⟩ [1]).1 (by decide),
   (c7_length_mismatch ⟨[0, 0], 1⟩ [1, 2, 3]).2.1 (by decide) (by decide),
   (c7_length_mismatch ⟨[0, 0], 1⟩ [1]).2.2 [1] [1, 2] (by decide)⟩

/-! ## Lemmas about the ordering-completeness analysis -/

theorem length_allPairs :
    ∀ l : List EventRecord, (allPairs l).length = l.length.choose 2 := by
  intro l
  induction l with
  | nil => rfl
  | cons x xs ih =>
    have hrec : (xs.length + 1).choose 2 = xs.length.choose 1 + xs.length.choose 2 :=
      Nat.choose_succ_succ xs.length 1
    simp only [allPairs, List.length_append, List.length_map, List.length_cons,
      ih, hrec, Nat.choose_one_right]

theorem orderableCount_le (sim : Simulation) :
    orderableCount sim ≤ (allPairs (collectEvents sim)).length := by
  unfold orderableCount
  split
  · exact le_refl _
  · exact List.countP_le_length _

/-- Claim C2: zero-or-one-event traces score 100 without dividing; the pair
loop ranges over all `n.choose 2` unordered pairs of distinct recorded
events; in vector mode every pair counts as decided so any returned score is
100; in scalar mode exactly the pairs with differing timestamps count and
the score is `orderable / total * 100`. -/
theorem c2_orderingCompleteness (sim : Simulation) :
    ((collectEvents sim).length ≤ 1 →
      calculateOrderingCorrectness sim = some 100) ∧
    ((allPairs (collectEvents sim)).length = (collectEvents sim).length.choose 2) ∧
    (sim.UseVectorClock = true → 2 ≤ (collectEvents sim).length →
      ∀ q, calculateOrderingCorrectness sim = some q → q = 100) ∧
    (sim.UseVectorClock = false → 2 ≤ (collectEvents sim).length →
      calculateOrderingCorrectness sim =
        some ((((allPairs (collectEvents sim)).countP
            fun pr => decide (pr.1.Timestamp ≠ pr.2.Timestamp) : ℚ)) /
          ((allPairs (collectEvents sim)).length : ℚ) * 100)) := by
  refine ⟨?_, length_allPairs _, ?_, ?_⟩
  · intro h1
    unfold calculateOrderingCorrectness
    rw [if_pos h1]
  · intro hv hn q hq
    have hpos : (allPairs (collectEvents sim)).length ≠ 0 := by
      rw [length_allPairs]
      exact (Nat.choose_pos hn).ne'
    unfold calculateOrderingCorrectness at hq
    rw [if_neg (by omega)] at hq
    cases hall : ((allPairs (collectEvents sim)).all
        fun pr => (CompareVectors pr.1.Vector pr.2.Vector).isSome) with
    | false =>
      rw [if_pos (by rw [hv, hall]; rfl)] at hq
      exact Option.noConfusion hq
    | true =>
      rw [if_neg (by rw [hv, hall]; decide)] at hq
      rw [if_neg hpos] at hq
      have hq2 := (Option.some.inj hq).symm
      have ho : (orderableCount sim : ℚ) =
          ((allPairs (collectEvents sim)).length : ℚ) := by
        unfold orderableCount
        rw [if_pos hv]
      have hne : ((allPairs (collectEvents sim)).length : ℚ) ≠ 0 :=
        Nat.cast_ne_zero.mpr hpos
      rw [ho, div_self hne, one_mul] at hq2
      exact hq2
  · intro hv hn
    have hpos : (allPairs (collectEvents sim)).length ≠ 0 := by
      rw [length_allPairs]
      exact (Nat.choose_pos hn).ne'
    unfold calculateOrderingCorrectness
    rw [if_neg (by omega), if_neg (by simp [hv]), if_neg hpos]
    unfold orderableCount
    rw [if_neg (by simp [hv])]

/-- Concrete evaluation: the three-event scalar trace has 3 pairs, 2 with
differing timestamps, and scores `200/3`. -/
theorem scalarSim_eval :
    calculateOrderingCorrectness scalarSim = some (200 / 3) := by
  unfold calculateOrderingCorrectness
  rw [if_neg (by decide), if_neg (by decide), if_neg (by decide)]
  rw [show orderableCount scalarSim = 2 from by decide,
    show (allPairs (collectEvents scalarSim)).length = 3 from by decide]
  norm_num

/-- Concrete evaluation: the three-event vector trace scores 100. -/
theorem vectorSim_eval : calculateOrderingCorrectness vectorSim = some 100 := by
  unfold calculateOrderingCorrectness
  rw [if_neg (by decide), if_neg (by decide), if_neg (by decide)]
  rw [show orderableCount vectorSim = 3 from by decide,
    show (allPairs (collectEvents vectorSim)).length = 3 from by decide]
  norm_num

/-- Claim C2 witness: concrete traces — a three-event scalar trace scores
`2/3 * 100`, a trivial empty trace scores 100, and the vector-mode score at
a concrete trace is 100. -/
theorem c2_witness :
    calculateOrderingCorrectness scalarSim = some (200 / 3) ∧
    calculateOrderingCorrectness { Processes := [], UseVectorClock := false } =
      some 100 ∧
    (100 : ℚ) = 100 :=
  ⟨((c2_orderingCompleteness scalarSim).2.2.2 rfl (by decide)).trans
     (by rw [show (allPairs (collectEvents scalarSim)).countP
           (fun pr => decide (pr.1.Timestamp ≠ pr.2.Timestamp)) = 2 from by decide,
         show (allPairs (collectEvents scalarSim)).length = 3 from by decide]
         norm_num),
   (c2_orderingCompleteness { Processes := [], UseVectorClock := false }).1
     (by decide),
   (c2_orderingCompleteness vectorSim).2.2.1 rfl (by decide) 100 vectorSim_eval⟩

/-- Claim C8 counterexample: the computation returns percentages, not
fractions: a concrete trace scores `200/3 ≈ 66.7`, outside `[0,1]`. -/
theorem c8_counterexample :
    calculateOrderingCorrectness scalarSim = some (200 / 3) ∧
    ¬ ((200 : ℚ) / 3 ≤ 1) := by
  constructor
  · exact scalarSim_eval
  · norm_num

/-- Claim C8 (amended): every value `calculateOrderingCorrectness` returns
lies in the closed interval `[0, 100]` (a percentage, not a `[0,1]`
fraction). -/
theorem c8_percentage_range (sim : Simulation) (q : ℚ)
    (h : calculateOrderingCorrectness sim = some q) : 0 ≤ q ∧ q ≤ 100 := by
  unfold calculateOrderingCorrectness at h
  split_ifs at h with h1 h2 h3
  · obtain rfl := (Option.some.inj h).symm
    norm_num
  · obtain rfl := (Option.some.inj h).symm
    norm_num
  · obtain rfl := (Option.some.inj h).symm
    have hposn : 0 < (allPairs (collectEvents sim)).length :=
      Nat.pos_of_ne_zero h3
    have ht : (0 : ℚ) < ((allPairs (collectEvents sim)).length : ℚ) := by
      exact_mod_cast hposn
    have ho : (orderableCount sim : ℚ) ≤
        ((allPairs (collectEvents sim)).length : ℚ) :=
      Nat.cast_le.mpr (orderableCount_le sim)
    constructor
    · positivity
    · have hdiv : (orderableCount sim : ℚ) /
          ((allPairs (collectEvents sim)).length : ℚ) ≤ 1 :=
        (div_le_one ht).mpr ho
      have hmul := mul_le_mul_of_nonneg_right hdiv
        (show (0 : ℚ) ≤ 100 by norm_num)
      rwa [one_mul] at hmul

/-- Claim C8 witness: the concrete score `200/3` is within `[0, 100]`. -/
theorem c8_witness : 0 ≤ (200 : ℚ) / 3 ∧ (200 : ℚ) / 3 ≤ 100 :=
  c8_percentage_range scalarSim (200 / 3) scalarSim_eval

theorem collectProcessEvents_congr (b : Bool) (p q : Process)
    (hag : agreeOnRecords p q) (hc : snapshotsCover b p) :
    collectProcessEvents b p = collectProcessEvents b q := by
  obtain ⟨hID, hLog, hVec, hTs⟩ := hag
  unfold collectProcessEvents
  rw [hLog]
  apply List.map_congr_left
  intro i hi
  have hi2 : i < p.EventLog.length := by
    rw [hLog]
    exact List.mem_range.mp hi
  unfold snapshotsCover at hc
  cases b with
  | true =>
    have hiv : i < p.EventVectors.length := lt_of_lt_of_le hi2 (by simpa using hc)
    have hiv2 : i < q.EventVectors.length := hVec ▸ hiv
    simp [hID, hVec, hiv, hiv2]
  | false =>
    have hit : i < p.EventTimestamps.length :=
      lt_of_lt_of_le hi2 (by simpa using hc)
    have hit2 : i < q.EventTimestamps.length := hTs ▸ hit
    simp [hID, hTs, hit, hit2]

theorem collectEvents_list_congr (b : Bool) :
    ∀ (l1 l2 : List Process), List.Forall₂ agreeOnRecords l1 l2 →
      (∀ p ∈ l1, snapshotsCover b p) →
      (l1.map (collectProcessEvents b)).foldr (· ++ ·) [] =
        (l2.map (collectProcessEvents b)).foldr (· ++ ·) [] := by
  intro l1 l2 hf
  induction hf with
  | nil => intro _; rfl
  | cons hpq htail ih =>
    intro hcov
    simp only [List.map_cons, List.foldr_cons]
    rw [collectProcessEvents_congr b _ _ hpq (hcov _ (by simp)),
      ih fun p hp => hcov p (by simp [hp])]

/-- Concrete evaluation: with the stale current value 5 equal to the lone
stored timestamp, the fallback makes the only pair look equal: score 0. -/
theorem fallbackSimA_eval :
    calculateOrderingCorrectness fallbackSimA = some 0 := by
  unfold calculateOrderingCorrectness
  rw [if_neg (by decide), if_neg (by decide), if_neg (by decide)]
  rw [show orderableCount fallbackSimA = 0 from by decide,
    show (allPairs (collectEvents fallbackSimA)).length = 1 from by decide]
  norm_num

/-- Concrete evaluation: with current value 7 the fallback makes the only
pair look distinct: score 100. -/
theorem fallbackSimB_eval :
    calculateOrderingCorrectness fallbackSimB = some 100 := by
  unfold calculateOrderingCorrectness
  rw [if_neg (by decide), if_neg (by decide), if_neg (by decide)]
  rw [show orderableCount fallbackSimB = 1 from by decide,
    show (allPairs (collectEvents fallbackSimB)).length = 1 from by decide]
  norm_num

/-- Claim C9 counterexample: on a state whose event log outruns its snapshot
list, the fallback branch reads the clock's current value, so two states
that agree on logs and snapshots but differ in current clock value produce
different scores (0 versus 100). -/
theorem c9_counterexample :
    agreeOnRecords fallbackProcA fallbackProcB ∧
    fallbackProcA.lamportTime ≠ fallbackProcB.lamportTime ∧
    calculateOrderingCorrectness fallbackSimA = some 0 ∧
    calculateOrderingCorrectness fallbackSimB = some 100 :=
  ⟨⟨rfl, rfl, rfl, rfl⟩, by decide, fallbackSimA_eval, fallbackSimB_eval⟩

/-- Claim C9 (amended): when every process's active snapshot list covers its
event log (so the fallback branches are never taken), the score is computed
exclusively from the recorded snapshots: any two states agreeing on ids,
logs and snapshot lists get the same score, whatever the clocks' current
values. -/
theorem c9_snapshot_determined (s1 s2 : Simulation)
    (hmode : s1.UseVectorClock = s2.UseVectorClock)
    (hag : List.Forall₂ agreeOnRecords s1.Processes s2.Processes)
    (hcov : ∀ p ∈ s1.Processes, snapshotsCover s1.UseVectorClock p) :
    calculateOrderingCorrectness s1 = calculateOrderingCorrectness s2 := by
  have hev : collectEvents s1 = collectEvents s2 := by
    unfold collectEvents
    rw [← hmode]
    exact collectEvents_list_congr s1.UseVectorClock s1.Processes s2.Processes
      hag hcov
  unfold calculateOrderingCorrectness orderableCount
  rw [hev, hmode]

/-- Claim C9 witness: changing only the current clock value of a fully
snapshot-covered process leaves the score unchanged. -/
theorem c9_witness :
    calculateOrderingCorrectness
        { Processes := [scalarProcA], UseVectorClock := false } =
      calculateOrderingCorrectness
        { Processes := [{ scalarProcA with lamportTime := 99 }],
          UseVectorClock := false } :=
  c9_snapshot_determined _ _ rfl
    (List.Forall₂.cons ⟨rfl, rfl, rfl, rfl⟩ List.Forall₂.nil) (by decide)

/-! ## Lemmas about the recording operations -/

theorem applyProcOp_lengths (p q : Process) (op : ProcOp)
    (h : applyProcOp p op = some q) :
    q.EventLog.length = p.EventLog.length + 1 ∧
    activeSnapshotLength q = activeSnapshotLength p + 1 := by
  by_cases hb : p.UseVectorClock = true
  · cases op with
    | localEvent message =>
      simp only [applyProcOp, Process.handleLocalEvent] at h
      rw [if_pos hb] at h
      cases hcl : p.vclock.localEvent with
      | none => rw [hcl] at h; exact Option.noConfusion h
      | some pr =>
        obtain ⟨vc2, vector⟩ := pr
        rw [hcl] at h
        obtain rfl := Option.some.inj h
        simp [activeSnapshotLength, hb]
    | sendMessage message =>
      simp only [applyProcOp, Process.sendMessage] at h
      rw [if_pos hb] at h
      cases hcl : p.vclock.sendEvent with
      | none => rw [hcl] at h; exact Option.noConfusion h
      | some pr =>
        obtain ⟨vc2, vector⟩ := pr
        rw [hcl] at h
        obtain rfl := Option.some.inj h
        simp [activeSnapshotLength, hb]
    | receiveMessage receivedVector receivedTime message =>
      simp only [applyProcOp, Process.receiveMessage] at h
      rw [if_pos hb] at h
      cases hcl : p.vclock.receiveEvent receivedVector with
      | none => rw [hcl] at h; exact Option.noConfusion h
      | some pr =>
        obtain ⟨vc2, vector⟩ := pr
        rw [hcl] at h
        obtain rfl := Option.some.inj h
        simp [activeSnapshotLength, hb]
  · cases op <;>
      simp only [applyProcOp, Process.handleLocalEvent, Process.sendMessage,
        Process.receiveMessage] at h <;>
      rw [if_neg hb] at h <;>
      (obtain rfl := Option.some.inj h) <;>
      simp [activeSnapshotLength, hb]

theorem runProcOps_aligned :
    ∀ (ops : List ProcOp) (p q : Process), snapshotAligned p →
      runProcOps p ops = some q → snapshotAligned q := by
  intro ops
  induction ops with
  | nil =>
    intro p q ha h
    unfold runProcOps at h
    obtain rfl := Option.some.inj h
    exact ha
  | cons op rest ih =>
    intro p q ha h
    unfold runProcOps at h
    cases hstep : applyProcOp p op with
    | none => rw [hstep] at h; exact Option.noConfusion h
    | some r =>
      rw [hstep] at h
      obtain ⟨h1, h2⟩ := applyProcOp_lengths p r op hstep
      refine ih r q ?_ h
      unfold snapshotAligned at ha ⊢
      omega

/-- Claim C10: every successful recording operation appends exactly one
event-log entry and exactly one snapshot to the active snapshot list, so any
state reached from a fresh process keeps `len(EventLog)` equal to the active
snapshot list's length — making the fallback branches (which need an index
`i < len(EventLog)` with `i ≥ len(snapshots)`) unreachable. -/
theorem c10_log_snapshot_alignment :
    (∀ (p q : Process) (op : ProcOp), applyProcOp p op = some q →
      q.EventLog.length = p.EventLog.length + 1 ∧
      activeSnapshotLength q = activeSnapshotLength p + 1) ∧
    (∀ (id numProcesses : Nat) (b : Bool) (ops : List ProcOp) (p : Process),
      runProcOps (NewProcess id numProcesses b) ops = some p →
      snapshotAligned p ∧
      ∀ i, i < p.EventLog.length → i < activeSnapshotLength p) := by
  constructor
  · exact applyProcOp_lengths
  · intro id n b ops p h
    have ha : snapshotAligned (NewProcess id n b) := by
      simp [snapshotAligned, activeSnapshotLength, NewProcess]
    have h2 := runProcOps_aligned ops _ p ha h
    refine ⟨h2, fun i hi => ?_⟩
    unfold snapshotAligned at h2
    omega

/-- Claim C10 witness: a concrete two-operation scalar run ends aligned. -/
theorem c10_witness :
    runProcOps (NewProcess 0 1 false) exampleOps = some exampleOpsResult ∧
    snapshotAligned exampleOpsResult :=
  ⟨by decide,
   (c10_log_snapshot_alignment.2 0 1 false exampleOps exampleOpsResult
      (by decide)).1⟩

end Dissy
